import Mathlib

/-
Shallow embedding of the pot-head potentiometer-processing library.
Numeric values (Rust f32) are modelled as exact rationals; the generic
input/output element types TIn/TOut are specialized to the rationals with
the identity conversion.  The feature set embedded is the full one
(all filters, both hysteresis modes, both snap-zone kinds, grab mode);
the optional std-math Logarithmic curve is left out, matching a build
without that feature.
-/

namespace Pot

/-- Response curve applied to the normalized value (src/curves.rs). -/
inductive ResponseCurve
  | Linear
deriving DecidableEq

/-- ResponseCurve::apply (src/curves.rs). -/
def ResponseCurve.apply : ResponseCurve → ℚ → ℚ
  | .Linear, normalized => normalized

/-- Noise filter configuration (src/filters/mod.rs). -/
inductive NoiseFilter
  | None
  | ExponentialMovingAverage (alpha : ℚ)
  | MovingAverage (window_size : ℕ)
deriving DecidableEq

/-- NoiseFilter::validate (src/filters/mod.rs); true means Ok. -/
def NoiseFilter.validate : NoiseFilter → Bool
  | .None => true
  | .ExponentialMovingAverage alpha =>
      if alpha ≤ 0 ∨ 1 < alpha then false else true
  | .MovingAverage window_size =>
      if window_size = 0 then false
      else if 32 < window_size then false
      else true

/-- Schmitt trigger output state (src/hysteresis.rs). -/
inductive SchmittState
  | Low
  | High
deriving DecidableEq

/-- Hysteresis modes (src/hysteresis.rs). -/
inductive HysteresisMode
  | None
  | ChangeThreshold (threshold : ℚ)
  | SchmittTrigger (rising falling : ℚ)
deriving DecidableEq

/-- State for hysteresis processing (src/hysteresis.rs). -/
structure HysteresisState where
  last_output : ℚ
  schmitt_state : SchmittState
deriving DecidableEq

/-- Default HysteresisState (src/hysteresis.rs). -/
def HysteresisState.default : HysteresisState :=
  { last_output := 0, schmitt_state := .Low }

/-- HysteresisMode::apply (src/hysteresis.rs); returns output and updated state. -/
def HysteresisMode.apply : HysteresisMode → ℚ → HysteresisState → ℚ × HysteresisState
  | .None, input, state => (input, state)
  | .ChangeThreshold threshold, input, state =>
      let diff := if state.last_output < input
        then input - state.last_output
        else state.last_output - input
      let output := if threshold < diff then input else state.last_output
      (output, { state with last_output := output })
  | .SchmittTrigger rising falling, input, state =>
      let st := if rising ≤ input then SchmittState.High
        else if input ≤ falling then SchmittState.Low
        else state.schmitt_state
      let output := match st with
        | .High => rising
        | .Low => falling
      (output, { last_output := output, schmitt_state := st })

/-- HysteresisMode::validate (src/hysteresis.rs); true means Ok. -/
def HysteresisMode.validate : HysteresisMode → Bool
  | .None => true
  | .ChangeThreshold _ => true
  | .SchmittTrigger rising falling =>
      if rising ≤ falling then false else true

/-- Snap zone behavior types (src/snap_zones.rs). -/
inductive SnapZoneType
  | Snap
  | Dead
deriving DecidableEq

/-- Snap zone configuration (src/snap_zones.rs). -/
structure SnapZone where
  target : ℚ
  threshold : ℚ
  zone_type : SnapZoneType
deriving DecidableEq

/-- SnapZone::contains (src/snap_zones.rs). -/
def SnapZone.contains (z : SnapZone) (value : ℚ) : Bool :=
  let min := z.target - z.threshold
  let max := z.target + z.threshold
  decide (min ≤ value) && decide (value ≤ max)

/-- SnapZone::apply (src/snap_zones.rs). -/
def SnapZone.apply (z : SnapZone) (_value : ℚ) (last_output : ℚ) : ℚ :=
  match z.zone_type with
  | .Snap => z.target
  | .Dead => last_output

/-- SnapZone::overlaps (src/snap_zones.rs). -/
def SnapZone.overlaps (z other : SnapZone) : Bool :=
  let self_min := z.target - z.threshold
  let self_max := z.target + z.threshold
  let other_min := other.target - other.threshold
  let other_max := other.target + other.threshold
  !(decide (self_max < other_min) || decide (other_max < self_min))

/-- Grab mode (src/grab_mode.rs). -/
inductive GrabMode
  | None
  | Pickup
  | PassThrough
deriving DecidableEq

/-- Configuration errors (src/config.rs). -/
inductive ConfigError
  | InvalidInputRange
  | InvalidOutputRange
  | InvalidHysteresis
  | InvalidFilter
  | OverlappingSnapZones
deriving DecidableEq

/-- Validated pipeline configuration (src/config.rs), with TIn = TOut = ℚ. -/
structure Config where
  input_min : ℚ
  input_max : ℚ
  output_min : ℚ
  output_max : ℚ
  hysteresis : HysteresisMode
  curve : ResponseCurve
  filter : NoiseFilter
  snap_zones : List SnapZone
  grab_mode : GrabMode
deriving DecidableEq

/-- Config::validate (src/config.rs). -/
def Config.validate (c : Config) : Except ConfigError Unit :=
  if c.input_max ≤ c.input_min then .error .InvalidInputRange
  else if c.output_min = c.output_max then .error .InvalidOutputRange
  else if !c.hysteresis.validate then .error .InvalidHysteresis
  else if !c.filter.validate then .error .InvalidFilter
  else .ok ()

/-- Pairwise overlap scan of Config::validate_snap_zones (src/config.rs):
true when no pair of zones overlaps. -/
def snapZonesDisjoint : List SnapZone → Bool
  | [] => true
  | z :: rest => rest.all (fun z2 => !(z.overlaps z2)) && snapZonesDisjoint rest

/-- Config::validate_snap_zones (src/config.rs). -/
def Config.validate_snap_zones (c : Config) : Except ConfigError Unit :=
  if snapZonesDisjoint c.snap_zones then .ok ()
  else .error .OverlappingSnapZones

/-- Exponential moving average filter state (src/filters/ema.rs). -/
structure EmaFilter where
  previous : ℚ
  initialized : Bool
deriving DecidableEq

/-- EmaFilter::new (src/filters/ema.rs). -/
def EmaFilter.new : EmaFilter :=
  { previous := 0, initialized := false }

/-- EmaFilter::apply (src/filters/ema.rs); returns output and updated state. -/
def EmaFilter.apply (f : EmaFilter) (input alpha : ℚ) : ℚ × EmaFilter :=
  if !f.initialized then
    (input, { previous := input, initialized := true })
  else
    let output := alpha * input + (1 - alpha) * f.previous
    (output, { previous := output, initialized := true })

/-- Moving average filter state (src/filters/moving_avg.rs). -/
structure MovingAvgFilter where
  buffer : List ℚ
  window_size : ℕ
  index : ℕ
  count : ℕ
deriving DecidableEq

/-- MovingAvgFilter::new (src/filters/moving_avg.rs): the heapless vector of
capacity 32 is pre-filled with min(window_size, 32) zeros. -/
def MovingAvgFilter.new (window_size : ℕ) : MovingAvgFilter :=
  { buffer := List.replicate (min window_size 32) 0
    window_size := window_size
    index := 0
    count := 0 }

/-- MovingAvgFilter::apply (src/filters/moving_avg.rs); returns output and
updated state. -/
def MovingAvgFilter.apply (f : MovingAvgFilter) (input : ℚ) : ℚ × MovingAvgFilter :=
  let buffer := f.buffer.set f.index input
  let index := (f.index + 1) % f.window_size
  let count := if f.count < f.window_size then f.count + 1 else f.count
  let sum := (buffer.take count).sum
  (sum / (count : ℚ),
   { buffer := buffer, window_size := f.window_size, index := index, count := count })

/-- Mutable pipeline state (src/state.rs). -/
structure State where
  hysteresis : HysteresisState
  ema_filter : Option EmaFilter
  ma_filter : Option MovingAvgFilter
  last_output : ℚ
  grabbed : Bool
  virtual_value : ℚ
  physical_position : ℚ
  last_physical : ℚ
  passthrough_initialized : Bool
deriving DecidableEq

/-- State::default (src/state.rs). -/
def State.default : State :=
  { hysteresis := HysteresisState.default
    ema_filter := none
    ma_filter := none
    last_output := 0
    grabbed := false
    virtual_value := 0
    physical_position := 0
    last_physical := 0
    passthrough_initialized := false }

/-- The pipeline engine (src/pothead.rs). -/
structure PotHead where
  config : Config
  state : State
deriving DecidableEq

/-- PotHead::new (src/pothead.rs): validate, then seed filter state from the
configuration. -/
def PotHead.new (config : Config) : Except ConfigError PotHead :=
  match config.validate with
  | .error e => .error e
  | .ok _ =>
      let state := State.default
      let state := match config.filter with
        | .ExponentialMovingAverage _ => { state with ema_filter := some EmaFilter.new }
        | _ => state
      let state := match config.filter with
        | .MovingAverage window_size =>
            { state with ma_filter := some (MovingAvgFilter.new window_size) }
        | _ => state
      .ok { config := config, state := state }

/-- PotHead::apply_filter (src/pothead.rs). -/
def PotHead.apply_filter (p : PotHead) (value : ℚ) : ℚ × PotHead :=
  match p.config.filter with
  | .None => (value, p)
  | .ExponentialMovingAverage alpha =>
      match p.state.ema_filter with
      | some f =>
          let r := f.apply value alpha
          (r.1, { p with state := { p.state with ema_filter := some r.2 } })
      | none => (value, p)
  | .MovingAverage _ =>
      match p.state.ma_filter with
      | some f =>
          let r := f.apply value
          (r.1, { p with state := { p.state with ma_filter := some r.2 } })
      | none => (value, p)

/-- The first-match-wins zone scan of PotHead::apply_snap_zones
(src/pothead.rs), as a recursion over the zone list. -/
def applySnapZonesList : List SnapZone → ℚ → ℚ → ℚ
  | [], value, _ => value
  | z :: rest, value, last_output =>
      if z.contains value then z.apply value last_output
      else applySnapZonesList rest value last_output

/-- PotHead::apply_snap_zones (src/pothead.rs). -/
def PotHead.apply_snap_zones (p : PotHead) (value : ℚ) : ℚ :=
  applySnapZonesList p.config.snap_zones value p.state.last_output

/-- PotHead::normalize_input (src/pothead.rs). -/
def PotHead.normalize_input (p : PotHead) (input : ℚ) : ℚ :=
  let clamped := if input < p.config.input_min then p.config.input_min
    else if p.config.input_max < input then p.config.input_max
    else input
  (clamped - p.config.input_min) / (p.config.input_max - p.config.input_min)

/-- PotHead::denormalize_output (src/pothead.rs). -/
def PotHead.denormalize_output (p : PotHead) (normalized : ℚ) : ℚ :=
  p.config.output_min + normalized * (p.config.output_max - p.config.output_min)

/-- PotHead::apply_grab_mode (src/pothead.rs); returns output and updated
state. -/
def PotHead.apply_grab_mode (p : PotHead) (value : ℚ) : ℚ × State :=
  let s := p.state
  match p.config.grab_mode with
  | .None =>
      (value, { s with grabbed := true, virtual_value := value })
  | .Pickup =>
      if !s.grabbed then
        if s.virtual_value ≤ value then
          (value, { s with grabbed := true, virtual_value := value })
        else
          (s.virtual_value, s)
      else
        (value, { s with virtual_value := value })
  | .PassThrough =>
      if !s.grabbed then
        if !s.passthrough_initialized then
          (s.virtual_value,
           { s with last_physical := value, passthrough_initialized := true })
        else
          let crossing_from_below :=
            s.virtual_value ≤ value ∧ s.last_physical < s.virtual_value
          let crossing_from_above :=
            value ≤ s.virtual_value ∧ s.virtual_value < s.last_physical
          if crossing_from_below ∨ crossing_from_above then
            (value, { s with grabbed := true, last_physical := value,
                             virtual_value := value })
          else
            (s.virtual_value, { s with last_physical := value })
      else
        (value, { s with last_physical := value, virtual_value := value })

/-- PotHead::update (src/pothead.rs): the full per-sample pipeline; returns
the denormalized output and the updated pipeline. -/
def PotHead.update (p : PotHead) (input : ℚ) : ℚ × PotHead :=
  let normalized := p.normalize_input input
  let fr := p.apply_filter normalized
  let p1 := fr.2
  let curved := p1.config.curve.apply fr.1
  let hr := p1.config.hysteresis.apply curved p1.state.hysteresis
  let p2 : PotHead :=
    { p1 with state := { p1.state with hysteresis := hr.2, physical_position := hr.1 } }
  let snapped := p2.apply_snap_zones hr.1
  let gr := p2.apply_grab_mode snapped
  let p3 : PotHead := { p2 with state := { gr.2 with last_output := gr.1 } }
  (p3.denormalize_output gr.1, p3)

/-- PotHead::physical_position accessor (src/pothead.rs). -/
def PotHead.physical_position (p : PotHead) : ℚ :=
  p.state.physical_position

/-- PotHead::current_output (src/pothead.rs). -/
def PotHead.current_output (p : PotHead) : ℚ :=
  p.state.virtual_value

/-- PotHead::is_waiting_for_grab (src/pothead.rs). -/
def PotHead.is_waiting_for_grab (p : PotHead) : Bool :=
  (p.config.grab_mode == GrabMode.Pickup
    || p.config.grab_mode == GrabMode.PassThrough)
  && !p.state.grabbed

/-- PotHead::set_virtual_value (src/pothead.rs). -/
def PotHead.set_virtual_value (p : PotHead) (value : ℚ) : PotHead :=
  { p with
      state := { p.state with
                  virtual_value := value
                  grabbed := false
                  passthrough_initialized := false } }

/-- PotHead::release (src/pothead.rs). -/
def PotHead.release (p : PotHead) : PotHead :=
  { p with
      state := { p.state with
                  virtual_value := p.state.physical_position
                  grabbed := false
                  passthrough_initialized := false } }

/-- Repeated application of a hysteresis mode to a list of inputs, collecting
the outputs (one update per sample, as PotHead::update drives the stage). -/
def HysteresisMode.applyAllOutputs (m : HysteresisMode) (st : HysteresisState) :
    List ℚ → List ℚ
  | [] => []
  | x :: xs =>
      let r := m.apply x st
      r.1 :: HysteresisMode.applyAllOutputs m r.2 xs

/-- The state PotHead::new seeds for a configuration: default state with the
filter slot matching the configured filter. -/
def PotHead.initState (c : Config) : State :=
  match c.filter with
  | .ExponentialMovingAverage _ => { State.default with ema_filter := some EmaFilter.new }
  | .MovingAverage window_size =>
      { State.default with ma_filter := some (MovingAvgFilter.new window_size) }
  | .None => State.default

end Pot

open Pot

lemma hysteresis_validate_false_iff (m : HysteresisMode) :
    m.validate = false ↔ ∃ r f, m = .SchmittTrigger r f ∧ r ≤ f := by
  cases m with
  | None => simp [HysteresisMode.validate]
  | ChangeThreshold t => simp [HysteresisMode.validate]
  | SchmittTrigger r f =>
      by_cases h : r ≤ f
      · simp only [HysteresisMode.validate, if_pos h]
        exact ⟨fun _ => ⟨r, f, rfl, h⟩, fun _ => trivial⟩
      · simp only [HysteresisMode.validate, if_neg h]
        simp [h]
        exact not_le.mp h

lemma filter_validate_false_iff (f : NoiseFilter) :
    f.validate = false ↔
      ((∃ a, f = .ExponentialMovingAverage a ∧ (a ≤ 0 ∨ 1 < a)) ∨
       (∃ w, f = .MovingAverage w ∧ (w = 0 ∨ 32 < w))) := by
  cases f with
  | None => simp [NoiseFilter.validate]
  | ExponentialMovingAverage a =>
      by_cases h : a ≤ 0 ∨ 1 < a <;> simp [NoiseFilter.validate, h]
  | MovingAverage w =>
      rcases Nat.eq_zero_or_pos w with hw | hw
      · simp [NoiseFilter.validate, hw]
      · by_cases h32 : 32 < w <;>
          simp [NoiseFilter.validate, Nat.pos_iff_ne_zero.mp hw, h32]

lemma config_validate_ok_iff (c : Config) :
    c.validate = .ok () ↔
      (c.input_min < c.input_max ∧ c.output_min ≠ c.output_max ∧
       c.hysteresis.validate = true ∧ c.filter.validate = true) := by
  unfold Config.validate
  split_ifs with h1 h2 h3 h4 <;>
    simp_all [not_le, Bool.not_eq_true]

lemma new_eq_ok_iff (c : Config) (p : PotHead) :
    PotHead.new c = .ok p ↔ (c.validate = .ok () ∧ p = ⟨c, PotHead.initState c⟩) := by
  unfold PotHead.new
  cases hv : c.validate with
  | error e => simp
  | ok u =>
      cases u
      cases hf : c.filter <;>
        simp [PotHead.initState, hf, eq_comm]

/-- Claim C2: PotHead::new returns Err exactly when the config is invalid,
with the variant decided by the first failing rule in the order input range,
output range, hysteresis, filter; it never returns OverlappingSnapZones
(that error only comes from the separate validate_snap_zones helper), and a
config passing all four rules yields Ok. -/
theorem C2_new_errors (c : Config) :
    (PotHead.new c = .error .InvalidInputRange ↔ c.input_max ≤ c.input_min)
  ∧ (PotHead.new c = .error .InvalidOutputRange ↔
      (c.input_min < c.input_max ∧ c.output_min = c.output_max))
  ∧ (PotHead.new c = .error .InvalidHysteresis ↔
      (c.input_min < c.input_max ∧ c.output_min ≠ c.output_max ∧
        ∃ r f, c.hysteresis = .SchmittTrigger r f ∧ r ≤ f))
  ∧ (PotHead.new c = .error .InvalidFilter ↔
      (c.input_min < c.input_max ∧ c.output_min ≠ c.output_max ∧
        ¬ (∃ r f, c.hysteresis = .SchmittTrigger r f ∧ r ≤ f) ∧
        ((∃ a, c.filter = .ExponentialMovingAverage a ∧ (a ≤ 0 ∨ 1 < a)) ∨
         (∃ w, c.filter = .MovingAverage w ∧ (w = 0 ∨ 32 < w)))))
  ∧ PotHead.new c ≠ .error .OverlappingSnapZones
  ∧ (c.validate_snap_zones = .error .OverlappingSnapZones ↔
      snapZonesDisjoint c.snap_zones = false)
  ∧ ((c.input_min < c.input_max ∧ c.output_min ≠ c.output_max ∧
      ¬ (∃ r f, c.hysteresis = .SchmittTrigger r f ∧ r ≤ f) ∧
      ¬ ((∃ a, c.filter = .ExponentialMovingAverage a ∧ (a ≤ 0 ∨ 1 < a)) ∨
         (∃ w, c.filter = .MovingAverage w ∧ (w = 0 ∨ 32 < w)))) →
      ∃ p, PotHead.new c = .ok p) := by
  have hh := hysteresis_validate_false_iff c.hysteresis
  have hf := filter_validate_false_iff c.filter
  have hsnap : c.validate_snap_zones = .error .OverlappingSnapZones ↔
      snapZonesDisjoint c.snap_zones = false := by
    unfold Config.validate_snap_zones
    by_cases hd : snapZonesDisjoint c.snap_zones <;> simp [hd]
  unfold PotHead.new Config.validate
  split_ifs with h1 h2 h3 h4
  · simp_all [not_le]
  · simp_all [not_le]
  · simp_all [not_le, Bool.not_eq_true]
  · simp_all [not_le, Bool.not_eq_true]
  · simp_all [not_le, Bool.not_eq_true, Bool.not_eq_false]

/-- Claim C5: ChangeThreshold hysteresis outputs the input and records it as
last_output exactly when |input - last_output| strictly exceeds the
threshold; otherwise, equality at the boundary included, it outputs the
unchanged last_output. -/
theorem C5_change_threshold (threshold input : ℚ) (st : HysteresisState) :
    (threshold < |input - st.last_output| →
      (HysteresisMode.ChangeThreshold threshold).apply input st
        = (input, { st with last_output := input }))
  ∧ (|input - st.last_output| ≤ threshold →
      (HysteresisMode.ChangeThreshold threshold).apply input st
        = (st.last_output, st)) := by
  have habs : (if st.last_output < input then input - st.last_output
      else st.last_output - input) = |input - st.last_output| := by
    rcases lt_or_le st.last_output input with h | h
    · rw [if_pos h, abs_of_pos (by linarith)]
    · rw [if_neg (not_lt.mpr h), abs_of_nonpos (by linarith), neg_sub]
  constructor
  · intro hgt
    simp only [HysteresisMode.apply, habs, if_pos hgt]
  · intro hle
    simp only [HysteresisMode.apply, habs, if_neg (not_lt.mpr hle)]

/-- Witness for C5 at threshold 1/10, input 1/2, the default state. -/
theorem C5_change_threshold_witness :
    ((1 : ℚ)/10 < |(1 : ℚ)/2 - HysteresisState.default.last_output|) ∧
    (HysteresisMode.ChangeThreshold (1/10)).apply (1/2) HysteresisState.default
      = (1/2, { HysteresisState.default with last_output := 1/2 }) :=
  ⟨by norm_num [HysteresisState.default, abs_of_nonneg],
   (C5_change_threshold (1/10) (1/2) HysteresisState.default).1
     (by norm_num [HysteresisState.default, abs_of_nonneg])⟩

/-- Claim C4: for SchmittTrigger with rising > falling, each apply moves the
state to High when input ≥ rising, to Low when input ≤ falling, and leaves it
unchanged strictly in between; the output is always exactly the threshold of
the current state (rising when High, falling when Low), so a sequence of
inputs strictly between the thresholds produces a constant output. -/
theorem C4_schmitt (rising falling : ℚ) (h : falling < rising) :
    (∀ (input : ℚ) (st : HysteresisState),
      (rising ≤ input →
        ((HysteresisMode.SchmittTrigger rising falling).apply input st).2.schmitt_state = .High)
      ∧ (input ≤ falling →
        ((HysteresisMode.SchmittTrigger rising falling).apply input st).2.schmitt_state = .Low)
      ∧ (falling < input → input < rising →
        ((HysteresisMode.SchmittTrigger rising falling).apply input st).2.schmitt_state
          = st.schmitt_state)
      ∧ ((HysteresisMode.SchmittTrigger rising falling).apply input st).1
          = (match ((HysteresisMode.SchmittTrigger rising falling).apply input st).2.schmitt_state with
              | .High => rising
              | .Low => falling))
  ∧ (∀ (st : HysteresisState) (inputs : List ℚ),
      (∀ y ∈ inputs, falling < y ∧ y < rising) →
      HysteresisMode.applyAllOutputs (.SchmittTrigger rising falling) st inputs
        = List.replicate inputs.length
            (match st.schmitt_state with | .High => rising | .Low => falling)) := by
  constructor
  · intro input st
    refine ⟨?_, ?_, ?_, ?_⟩
    · intro hri
      simp only [HysteresisMode.apply, if_pos hri]
    · intro hfa
      have : ¬ rising ≤ input := by linarith
      simp only [HysteresisMode.apply, if_neg this, if_pos hfa]
    · intro h1 h2
      have hn1 : ¬ rising ≤ input := by linarith
      have hn2 : ¬ input ≤ falling := by linarith
      simp only [HysteresisMode.apply, if_neg hn1, if_neg hn2]
    · simp only [HysteresisMode.apply]
  · intro st inputs hin
    induction inputs generalizing st with
    | nil => simp [HysteresisMode.applyAllOutputs]
    | cons y ys ih =>
        have hy := hin y (by simp)
        have hn1 : ¬ rising ≤ y := by linarith [hy.2]
        have hn2 : ¬ y ≤ falling := by linarith [hy.1]
        simp only [HysteresisMode.applyAllOutputs, HysteresisMode.apply,
          if_neg hn1, if_neg hn2, List.length_cons]
        rw [ih _ (fun z hz => hin z (by simp [hz]))]
        rfl

/-- Witness for C4 with rising 3/5, falling 2/5 and three in-band inputs. -/
theorem C4_schmitt_witness :
    ((2 : ℚ)/5 < 3/5) ∧
    HysteresisMode.applyAllOutputs (.SchmittTrigger (3/5) (2/5)) HysteresisState.default
      [1/2, 9/20, 11/20] = [2/5, 2/5, 2/5] := by
  refine ⟨by norm_num, ?_⟩
  have h := (C4_schmitt (3/5) (2/5) (by norm_num)).2 HysteresisState.default
    [1/2, 9/20, 11/20] (by intro y hy; fin_cases hy <;> constructor <;> norm_num)
  simpa [HysteresisState.default, List.replicate] using h

lemma applySnapZonesList_eq_find (zones : List SnapZone) (v last : ℚ) :
    applySnapZonesList zones v last =
      match zones.find? (fun z => z.contains v) with
      | some z => z.apply v last
      | none => v := by
  induction zones with
  | nil => rfl
  | cons z rest ih =>
      by_cases h : z.contains v
      · simp [applySnapZonesList, List.find?, h]
      · simp [applySnapZonesList, List.find?, h, ih]

/-- Claim C6: snap-zone evaluation scans the configured zone list in order
and the first zone whose closed interval [target-threshold, target+threshold]
contains the value applies — Snap yields the zone target, Dead yields the
stored last_output — while a value in no zone passes through; first match
wins on overlap. -/
theorem C6_snap_zones (p : PotHead) (v : ℚ) :
    (p.apply_snap_zones v =
      match p.config.snap_zones.find? (fun z => z.contains v) with
      | some z => match z.zone_type with
                  | .Snap => z.target
                  | .Dead => p.state.last_output
      | none => v)
  ∧ (∀ z : SnapZone, z.contains v = true ↔
      (z.target - z.threshold ≤ v ∧ v ≤ z.target + z.threshold)) := by
  constructor
  · rw [PotHead.apply_snap_zones, applySnapZonesList_eq_find]
    rcases hfind : p.config.snap_zones.find? (fun z => z.contains v) with _ | z
    · rfl
    · simp [SnapZone.apply]
  · intro z
    simp [SnapZone.contains]

lemma apply_filter_config (p : PotHead) (v : ℚ) :
    (p.apply_filter v).2.config = p.config := by
  unfold PotHead.apply_filter
  rcases p.config.filter with _ | a | w
  · rfl
  · rcases p.state.ema_filter with _ | f <;> rfl
  · rcases p.state.ma_filter with _ | f <;> rfl

lemma apply_grab_mode_fst_eq_virtual (p : PotHead) (v : ℚ) :
    (p.apply_grab_mode v).2.virtual_value = (p.apply_grab_mode v).1 := by
  unfold PotHead.apply_grab_mode
  rcases p.config.grab_mode with _ | _ | _ <;> simp <;> split_ifs <;> simp

/-- Claim C10: after every update, in every grab mode and grab state, the
stored virtual_value equals the stored last_output, and the value the update
returned is exactly the denormalization of current_output. -/
theorem C10_virtual_tracks_output (p : PotHead) (input : ℚ) :
    ((p.update input).2.state.virtual_value = (p.update input).2.state.last_output)
  ∧ ((p.update input).1
      = (p.update input).2.denormalize_output ((p.update input).2.current_output)) := by
  rcases hgm : p.config.grab_mode with _ | _ | _ <;>
    simp [PotHead.update, PotHead.apply_grab_mode, PotHead.current_output,
      PotHead.denormalize_output, apply_filter_config, hgm] <;>
    split_ifs <;> simp

/-- Config used to refute claim C1 as stated: Linear curve, no filter, no
hysteresis — but PassThrough grab mode. -/
def cfgC1 : Config :=
  { input_min := 0, input_max := 1, output_min := 0, output_max := 1
    hysteresis := .None, curve := .Linear, filter := .None
    snap_zones := [], grab_mode := .PassThrough }

/-- The pipeline PotHead::new builds for cfgC1. -/
def potC1 : PotHead := { config := cfgC1, state := State.default }

/-- Counterexample to claim C1 as stated: with curve Linear, filter None and
hysteresis None but grab_mode PassThrough, the accepted config cfgC1 has
update(input_max) return 0, not output_max = 1 (the first ungrabbed update
holds the frozen virtual value). -/
theorem C1_counterexample :
    cfgC1.curve = .Linear ∧ cfgC1.filter = .None ∧ cfgC1.hysteresis = .None ∧
    PotHead.new cfgC1 = .ok potC1 ∧
    (potC1.update cfgC1.input_max).1 ≠ cfgC1.output_max := by
  refine ⟨rfl, rfl, rfl, ?_, ?_⟩
  · norm_num [PotHead.new, Config.validate, HysteresisMode.validate,
      NoiseFilter.validate, potC1, cfgC1]
  · norm_num [PotHead.update, PotHead.normalize_input, PotHead.apply_filter,
      PotHead.apply_snap_zones, PotHead.apply_grab_mode, PotHead.denormalize_output,
      ResponseCurve.apply, HysteresisMode.apply, applySnapZonesList,
      potC1, cfgC1, State.default, HysteresisState.default]

/-- Claim C1 (amended): for every config accepted by new with curve Linear,
filter None, hysteresis None, no snap zones, and grab mode None or Pickup,
update(input_min) returns output_min and update(input_max) returns
output_max; when output_min > output_max the mapping is polarity-inverted,
so the input_max endpoint yields the numerically smaller output. -/
theorem C1_endpoints (c : Config) (p : PotHead)
    (hC : c.curve = .Linear) (hF : c.filter = .None) (hH : c.hysteresis = .None)
    (hS : c.snap_zones = []) (hG : c.grab_mode = .None ∨ c.grab_mode = .Pickup)
    (hnew : PotHead.new c = .ok p) :
    (p.update c.input_min).1 = c.output_min
  ∧ (p.update c.input_max).1 = c.output_max
  ∧ (c.output_max < c.output_min →
      (p.update c.input_max).1 < (p.update c.input_min).1) := by
  rw [new_eq_ok_iff] at hnew
  obtain ⟨hval, rfl⟩ := hnew
  have hlt : c.input_min < c.input_max := ((config_validate_ok_iff c).mp hval).1
  have hne : c.input_max - c.input_min ≠ 0 := sub_ne_zero.mpr (ne_of_gt hlt)
  have hstate : PotHead.initState c = State.default := by
    simp [PotHead.initState, hF]
  have hmin : ((PotHead.mk c (PotHead.initState c)).update c.input_min).1 = c.output_min := by
    rcases hG with hG | hG <;>
      simp [PotHead.update, PotHead.normalize_input, PotHead.apply_filter,
        PotHead.apply_snap_zones, PotHead.apply_grab_mode, PotHead.denormalize_output,
        ResponseCurve.apply, HysteresisMode.apply, applySnapZonesList,
        hstate, hC, hF, hH, hS, hG, State.default, HysteresisState.default,
        lt_irrefl, not_lt.mpr hlt.le, sub_self, zero_div, lt_asymm hlt]
  have hmax : ((PotHead.mk c (PotHead.initState c)).update c.input_max).1 = c.output_max := by
    have hdiv : (c.input_max - c.input_min) / (c.input_max - c.input_min) = 1 :=
      div_self hne
    rcases hG with hG | hG <;>
      simp [PotHead.update, PotHead.normalize_input, PotHead.apply_filter,
        PotHead.apply_snap_zones, PotHead.apply_grab_mode, PotHead.denormalize_output,
        ResponseCurve.apply, HysteresisMode.apply, applySnapZonesList,
        hstate, hC, hF, hH, hS, hG, State.default, HysteresisState.default,
        lt_irrefl, not_lt.mpr hlt.le, lt_asymm hlt, hdiv]
  refine ⟨hmin, hmax, ?_⟩
  intro hinv
  rw [hmin, hmax]
  exact hinv

/-- Config witnessing the amended claim C1, with an inverted output range. -/
def cfgC1w : Config :=
  { input_min := 0, input_max := 2, output_min := 1, output_max := 0
    hysteresis := .None, curve := .Linear, filter := .None
    snap_zones := [], grab_mode := .None }

/-- The pipeline PotHead::new builds for cfgC1w. -/
def potC1w : PotHead := { config := cfgC1w, state := State.default }

/-- Witness for the amended claim C1 on a concrete inverted-range config. -/
theorem C1_endpoints_witness :
    PotHead.new cfgC1w = .ok potC1w ∧
    (potC1w.update cfgC1w.input_min).1 = cfgC1w.output_min ∧
    (potC1w.update cfgC1w.input_max).1 = cfgC1w.output_max := by
  have hnew : PotHead.new cfgC1w = .ok potC1w := by
    norm_num [PotHead.new, Config.validate, HysteresisMode.validate,
      NoiseFilter.validate, potC1w, cfgC1w]
  have h := C1_endpoints cfgC1w potC1w rfl rfl rfl rfl (Or.inl rfl) hnew
  exact ⟨hnew, h.1, h.2.1⟩

namespace Pot

/-- Repeated PotHead::update over a list of raw samples, collecting each
returned output together with is_waiting_for_grab() read after the call. -/
def PotHead.updateAll (p : PotHead) : List ℚ → List (ℚ × Bool)
  | [] => []
  | x :: xs =>
      let r := p.update x
      (r.1, r.2.is_waiting_for_grab) :: r.2.updateAll xs

end Pot

/-- Identity-range Pickup configuration for the C7 scenario. -/
def cfgC7 : Config :=
  { input_min := 0, input_max := 1, output_min := 0, output_max := 1
    hysteresis := .None, curve := .Linear, filter := .None
    snap_zones := [], grab_mode := .Pickup }

/-- The pipeline PotHead::new builds for cfgC7. -/
def potC7base : PotHead := { config := cfgC7, state := State.default }

/-- potC7base after set_virtual_value(0.7). -/
def potC7v : PotHead := potC7base.set_virtual_value (7/10)

/-- Claim C7: in Pickup mode, while ungrabbed a value reaching the grab stage
at or above the virtual value grabs and is passed through, a lower value
leaves the state untouched and returns the frozen virtual value (with
is_waiting_for_grab true); once grabbed every value is tracked.  Concretely,
after set_virtual_value(0.7) the inputs 0.2, 0.3, 0.5 each output 0.7 while
waiting, 0.7 grabs with output 0.7, and 0.8 then outputs 0.8. -/
theorem C7_pickup :
    (∀ (p : PotHead) (v : ℚ), p.config.grab_mode = .Pickup →
      ((p.state.grabbed = false → p.state.virtual_value ≤ v →
          p.apply_grab_mode v = (v, { p.state with grabbed := true, virtual_value := v }))
       ∧ (p.state.grabbed = false → v < p.state.virtual_value →
          p.apply_grab_mode v = (p.state.virtual_value, p.state)
            ∧ p.is_waiting_for_grab = true)
       ∧ (p.state.grabbed = true →
          p.apply_grab_mode v = (v, { p.state with virtual_value := v }))))
  ∧ (PotHead.new cfgC7 = .ok potC7base
     ∧ potC7v.updateAll [1/5, 3/10, 1/2, 7/10, 4/5]
         = [(7/10, true), (7/10, true), (7/10, true), (7/10, false), (4/5, false)]) := by
  constructor
  · intro p v hgm
    refine ⟨?_, ?_, ?_⟩
    · intro h1 h2
      simp [PotHead.apply_grab_mode, hgm, h1, h2]
    · intro h1 h2
      refine ⟨?_, ?_⟩
      · simp [PotHead.apply_grab_mode, hgm, h1, not_le.mpr h2]
      · simp [PotHead.is_waiting_for_grab, hgm, h1]
    · intro h1
      simp [PotHead.apply_grab_mode, hgm, h1]
  · constructor
    · norm_num [PotHead.new, Config.validate, HysteresisMode.validate,
        NoiseFilter.validate, potC7base, cfgC7]
    · norm_num [PotHead.updateAll, PotHead.update, PotHead.normalize_input,
        PotHead.apply_filter, PotHead.apply_snap_zones, PotHead.apply_grab_mode,
        PotHead.denormalize_output, PotHead.set_virtual_value,
        PotHead.is_waiting_for_grab, ResponseCurve.apply, HysteresisMode.apply,
        applySnapZonesList, potC7v, potC7base, cfgC7, State.default,
        HysteresisState.default, beq_iff_eq]

/-- Witness for C7's quantified part: potC7v holds the frozen 0.7 on input 0.2. -/
theorem C7_pickup_witness :
    potC7v.state.grabbed = false ∧ ((1 : ℚ)/5 < potC7v.state.virtual_value) ∧
    potC7v.apply_grab_mode (1/5) = (potC7v.state.virtual_value, potC7v.state) := by
  have hlt : (1 : ℚ)/5 < potC7v.state.virtual_value := by
    norm_num [potC7v, potC7base, PotHead.set_virtual_value, State.default, cfgC7]
  exact ⟨rfl, hlt, ((C7_pickup.1 potC7v (1/5) rfl).2.1 rfl hlt).1⟩

/-- Claim C8: in PassThrough mode, the first ungrabbed update after
set_virtual_value or release (reference flag cleared) only records the
reference position and returns the frozen virtual value even at equality; on
later ungrabbed updates it grabs exactly on a crossing — (value ≥ virtual and
last_physical < virtual) or (value ≤ virtual and last_physical > virtual) —
snapping output and virtual value to the physical value, and otherwise
records last_physical and keeps returning the frozen virtual value. -/
theorem C8_passthrough :
    ∀ (p : PotHead) (v : ℚ), p.config.grab_mode = .PassThrough →
      ((p.state.grabbed = false → p.state.passthrough_initialized = false →
         p.apply_grab_mode v = (p.state.virtual_value,
           { p.state with last_physical := v, passthrough_initialized := true }))
      ∧ (p.state.grabbed = false → p.state.passthrough_initialized = true →
          ((p.state.virtual_value ≤ v ∧ p.state.last_physical < p.state.virtual_value) ∨
           (v ≤ p.state.virtual_value ∧ p.state.virtual_value < p.state.last_physical)) →
          p.apply_grab_mode v
            = (v, { p.state with grabbed := true, last_physical := v, virtual_value := v }))
      ∧ (p.state.grabbed = false → p.state.passthrough_initialized = true →
          ¬ ((p.state.virtual_value ≤ v ∧ p.state.last_physical < p.state.virtual_value) ∨
             (v ≤ p.state.virtual_value ∧ p.state.virtual_value < p.state.last_physical)) →
          p.apply_grab_mode v = (p.state.virtual_value, { p.state with last_physical := v }))
      ∧ (p.state.grabbed = true →
          p.apply_grab_mode v = (v, { p.state with last_physical := v, virtual_value := v }))
      ∧ (∀ w, (p.set_virtual_value w).state.passthrough_initialized = false
            ∧ (p.set_virtual_value w).state.grabbed = false
            ∧ (p.set_virtual_value w).state.virtual_value = w)
      ∧ ((p.release).state.passthrough_initialized = false
            ∧ (p.release).state.grabbed = false)) := by
  intro p v hgm
  refine ⟨?_, ?_, ?_, ?_, ?_, ?_⟩
  · intro h1 h2
    simp [PotHead.apply_grab_mode, hgm, h1, h2]
  · intro h1 h2 hcross
    simp [PotHead.apply_grab_mode, hgm, h1, h2, hcross]
  · intro h1 h2 hcross
    simp [PotHead.apply_grab_mode, hgm, h1, h2, hcross]
  · intro h1
    simp [PotHead.apply_grab_mode, hgm, h1]
  · intro w
    simp [PotHead.set_virtual_value]
  · simp [PotHead.release]

/-- Identity-range PassThrough configuration for the C8 witness. -/
def cfgC8 : Config :=
  { input_min := 0, input_max := 1, output_min := 0, output_max := 1
    hysteresis := .None, curve := .Linear, filter := .None
    snap_zones := [], grab_mode := .PassThrough }

/-- The pipeline PotHead::new builds for cfgC8. -/
def potC8base : PotHead := { config := cfgC8, state := State.default }

/-- potC8base after set_virtual_value(0.5). -/
def potC8v : PotHead := potC8base.set_virtual_value (1/2)

/-- Witness for C8: the first read after set_virtual_value does not grab even
when the value exactly equals the virtual value. -/
theorem C8_passthrough_witness :
    potC8v.state.grabbed = false ∧ potC8v.state.passthrough_initialized = false ∧
    (potC8v.apply_grab_mode (1/2)).2.grabbed = false ∧
    (potC8v.apply_grab_mode (1/2)).1 = potC8v.state.virtual_value := by
  have h := (C8_passthrough potC8v (1/2) rfl).1 rfl rfl
  refine ⟨rfl, rfl, ?_, ?_⟩ <;> rw [h] <;> rfl

/-- Config with an inverted input range, rejected by PotHead::new. -/
def cfgC2bad : Config :=
  { input_min := 1, input_max := 0, output_min := 0, output_max := 1
    hysteresis := .None, curve := .Linear, filter := .None
    snap_zones := [], grab_mode := .None }

/-- Valid config used to witness the Ok case of claim C2. -/
def cfgC2good : Config :=
  { input_min := 0, input_max := 1, output_min := 0, output_max := 1
    hysteresis := .None, curve := .Linear, filter := .None
    snap_zones := [], grab_mode := .None }

/-- Witness for C2: a reversed input range is rejected as InvalidInputRange
and a fully valid config is accepted. -/
theorem C2_new_errors_witness :
    PotHead.new cfgC2bad = .error .InvalidInputRange ∧
    (∃ p, PotHead.new cfgC2good = .ok p) := by
  refine ⟨(C2_new_errors cfgC2bad).1.mpr (by norm_num [cfgC2bad]), ?_⟩
  refine (C2_new_errors cfgC2good).2.2.2.2.2.2 ?_
  refine ⟨by norm_num [cfgC2good], by norm_num [cfgC2good], ?_, ?_⟩
  · simp [cfgC2good]
  · simp [cfgC2good]

namespace Pot

/-- State of a moving-average filter after applying a list of samples. -/
def MovingAvgFilter.runAll (f : MovingAvgFilter) (xs : List ℚ) : MovingAvgFilter :=
  xs.foldl (fun g x => (g.apply x).2) f

/-- Outputs of a moving-average filter over a list of samples. -/
def MovingAvgFilter.applyAll (f : MovingAvgFilter) : List ℚ → List ℚ
  | [] => []
  | x :: xs =>
      let r := f.apply x
      r.1 :: r.2.applyAll xs

/-- Index of the most recent write into slot j of a window of size ws after n
samples: the largest k < n with k % ws = j. -/
def lastIdx (ws : ℕ) : ℕ → ℕ → Option ℕ
  | 0, _ => none
  | n+1, j => if n % ws = j then some n else lastIdx ws n j

/-- Content of circular-buffer slot j after feeding the history h. -/
def slot (ws : ℕ) (h : List ℚ) (j : ℕ) : ℚ :=
  match lastIdx ws h.length j with
  | some k => h.getD k 0
  | none => 0

end Pot

lemma lastIdx_eq_some_iff (ws : ℕ) : ∀ (n j k : ℕ),
    lastIdx ws n j = some k ↔
      (k < n ∧ k % ws = j ∧ ∀ m, k < m → m < n → m % ws ≠ j) := by
  intro n
  induction n with
  | zero => intro j k; simp [lastIdx]
  | succ n ih =>
      intro j k
      by_cases hj : n % ws = j
      · simp only [lastIdx, if_pos hj]
        constructor
        · rintro ⟨rfl⟩
          exact ⟨Nat.lt_succ_self n, hj, fun m h1 h2 => absurd h2 (by omega)⟩
        · rintro ⟨hk, hkj, hmax⟩
          rcases Nat.lt_succ_iff_lt_or_eq.mp hk with hk' | rfl
          · exact absurd hj (hmax n hk' (Nat.lt_succ_self n))
          · rfl
      · simp only [lastIdx, if_neg hj]
        rw [ih j k]
        constructor
        · rintro ⟨hk, hkj, hmax⟩
          refine ⟨by omega, hkj, fun m h1 h2 => ?_⟩
          rcases Nat.lt_succ_iff_lt_or_eq.mp h2 with h2' | rfl
          · exact hmax m h1 h2'
          · exact hj
        · rintro ⟨hk, hkj, hmax⟩
          have hkn : k ≠ n := by rintro rfl; exact hj hkj
          exact ⟨by omega, hkj, fun m h1 h2 => hmax m h1 (by omega)⟩

lemma lastIdx_eq_none_iff (ws : ℕ) : ∀ (n j : ℕ),
    lastIdx ws n j = none ↔ ∀ k, k < n → k % ws ≠ j := by
  intro n
  induction n with
  | zero => intro j; simp [lastIdx]
  | succ n ih =>
      intro j
      by_cases hj : n % ws = j
      · simp only [lastIdx, if_pos hj]
        constructor
        · intro h; exact absurd h (by simp)
        · intro h; exact absurd hj (h n (Nat.lt_succ_self n))
      · simp only [lastIdx, if_neg hj]
        rw [ih j]
        constructor
        · intro h k hk
          rcases Nat.lt_succ_iff_lt_or_eq.mp hk with hk' | rfl
          · exact h k hk'
          · exact hj
        · intro h k hk; exact h k (by omega)

lemma slot_nil (ws j : ℕ) : slot ws [] j = 0 := by
  simp [slot, lastIdx]

lemma slot_append (ws : ℕ) (h : List ℚ) (x : ℚ) (j : ℕ) :
    slot ws (h ++ [x]) j = if h.length % ws = j then x else slot ws h j := by
  unfold slot
  have hlen : (h ++ [x]).length = h.length + 1 := by simp
  rw [hlen]
  by_cases hj : h.length % ws = j
  · rw [if_pos hj]
    show (match lastIdx ws (h.length + 1) j with
      | some k => (h ++ [x]).getD k 0 | none => 0) = x
    rw [show lastIdx ws (h.length + 1) j = some h.length from by
      simp [lastIdx, hj]]
    simp [List.getD_append_right, List.getD]
  · rw [if_neg hj]
    show (match lastIdx ws (h.length + 1) j with
      | some k => (h ++ [x]).getD k 0 | none => 0)
      = (match lastIdx ws h.length j with
      | some k => h.getD k 0 | none => 0)
    rw [show lastIdx ws (h.length + 1) j = lastIdx ws h.length j from by
      simp [lastIdx, hj]]
    rcases hfind : lastIdx ws h.length j with _ | k
    · rfl
    · have hk := ((lastIdx_eq_some_iff ws h.length j k).mp hfind).1
      simp [List.getD, List.getElem?_append, hk]

lemma lastIdx_full (ws n : ℕ) (h1 : 1 ≤ ws) (h2 : ws ≤ n) :
    lastIdx ws n (n % ws) = some (n - ws) := by
  rw [lastIdx_eq_some_iff]
  refine ⟨by omega, ?_, ?_⟩
  · conv_rhs => rw [show n = (n - ws) + ws from by omega]
    rw [Nat.add_mod_right]
  · intro m hm1 hm2 hmod
    have hmd : m % ws = n % ws := hmod ▸ rfl
    have : m ≡ n [MOD ws] := hmd
    have hdvd : ws ∣ n - m := (Nat.modEq_iff_dvd' (by omega)).mp this
    have hpos : 0 < n - m := by omega
    have := Nat.le_of_dvd hpos hdvd
    omega

lemma slot_full (ws : ℕ) (h : List ℚ) (h1 : 1 ≤ ws) (h2 : ws ≤ h.length) :
    slot ws h (h.length % ws) = h.getD (h.length - ws) 0 := by
  unfold slot
  rw [lastIdx_full ws h.length h1 h2]

lemma sum_map_range_update (g : ℕ → ℚ) (x : ℚ) (j0 : ℕ) : ∀ (k : ℕ), j0 < k →
    ((List.range k).map (fun j => if j0 = j then x else g j)).sum
      = ((List.range k).map g).sum - g j0 + x := by
  intro k
  induction k with
  | zero => omega
  | succ k ih =>
      intro hj0
      rw [List.range_succ, List.map_append, List.map_append, List.sum_append,
        List.sum_append]
      by_cases hk : j0 = k
      · subst hk
        have hcongr : (List.range j0).map (fun j => if j0 = j then x else g j)
            = (List.range j0).map g := by
          apply List.map_congr_left
          intro a ha
          have : a < j0 := List.mem_range.mp ha
          rw [if_neg (by omega)]
        rw [hcongr]
        simp
        try ring
      · have hj0k : j0 < k := by omega
        rw [ih hj0k]
        simp [if_neg hk]
        try ring

lemma sum_slots (ws : ℕ) (h1 : 1 ≤ ws) (h : List ℚ) :
    ((List.range (min h.length ws)).map (slot ws h)).sum
      = (h.drop (h.length - ws)).sum := by
  induction h using List.reverseRecOn with
  | nil => simp [slot_nil]
  | append_singleton h x ih =>
      have hlen : (h ++ [x]).length = h.length + 1 := by simp
      rw [hlen]
      by_cases hlt : h.length < ws
      · have hmin1 : min (h.length + 1) ws = h.length + 1 := by omega
        have hmin0 : min h.length ws = h.length := by omega
        rw [hmin1, List.range_succ, List.map_append, List.sum_append]
        have hmod : h.length % ws = h.length := Nat.mod_eq_of_lt hlt
        have hcongr : (List.range h.length).map (slot ws (h ++ [x]))
            = (List.range h.length).map (slot ws h) := by
          apply List.map_congr_left
          intro a ha
          have haa : a < h.length := List.mem_range.mp ha
          rw [slot_append, if_neg (by omega)]
        have hlast : slot ws (h ++ [x]) h.length = x := by
          rw [slot_append, if_pos hmod]
        have ih' := ih
        rw [hmin0] at ih'
        simp only [List.map_cons, List.map_nil, List.sum_cons, List.sum_nil, add_zero]
        rw [hcongr, hlast, ih']
        have hd0 : h.length - ws = 0 := by omega
        have hd1 : h.length + 1 - ws = 0 := by omega
        rw [hd0, hd1]
        simp
      · have hge : ws ≤ h.length := by omega
        have hmin1 : min (h.length + 1) ws = ws := by omega
        have hmin0 : min h.length ws = ws := by omega
        rw [hmin1]
        have hj0 : h.length % ws < ws := Nat.mod_lt _ (by omega)
        have hcongr : (List.range ws).map (slot ws (h ++ [x]))
            = (List.range ws).map
                (fun j => if h.length % ws = j then x else slot ws h j) := by
          apply List.map_congr_left
          intro a _
          rw [slot_append]
        have ih' := ih
        rw [hmin0] at ih'
        rw [hcongr, sum_map_range_update (slot ws h) x (h.length % ws) ws hj0,
          ih', slot_full ws h h1 hge]
        have hdrop1 : (h ++ [x]).drop (h.length + 1 - ws)
            = h.drop (h.length + 1 - ws) ++ [x] :=
          List.drop_append_of_le_length (by omega)
        have hdrop0 : h.drop (h.length - ws)
            = h.getD (h.length - ws) 0 :: h.drop (h.length + 1 - ws) := by
          have hlt2 : h.length - ws < h.length := by omega
          have heq : h.length - ws + 1 = h.length + 1 - ws := by omega
          rw [List.getD_eq_getElem _ _ hlt2, List.drop_eq_getElem_cons hlt2, heq]
        rw [hdrop1, hdrop0]
        simp
        try ring

/-- Relation between a moving-average filter state and the history of samples
fed to it: correct window, write index, fill count, and per-slot contents. -/
def MAInv (ws : ℕ) (hist : List ℚ) (f : MovingAvgFilter) : Prop :=
  f.window_size = ws ∧ f.index = hist.length % ws ∧
  f.count = min hist.length ws ∧
  f.buffer = (List.range ws).map (slot ws hist)

lemma new_MAInv (ws : ℕ) (h1 : 1 ≤ ws) (h2 : ws ≤ 32) :
    MAInv ws [] (MovingAvgFilter.new ws) := by
  refine ⟨rfl, by simp [MovingAvgFilter.new], by simp [MovingAvgFilter.new], ?_⟩
  show List.replicate (min ws 32) 0 = (List.range ws).map (slot ws [])
  have : min ws 32 = ws := by omega
  rw [this]
  apply List.ext_getElem
  · simp
  · intro i hi1 hi2
    simp [slot_nil]

lemma apply_MAInv (ws : ℕ) (h1 : 1 ≤ ws) (hist : List ℚ) (f : MovingAvgFilter)
    (hinv : MAInv ws hist f) (x : ℚ) :
    MAInv ws (hist ++ [x]) (f.apply x).2 ∧
    (f.apply x).1 = ((hist ++ [x]).drop (hist.length + 1 - ws)).sum
        / ((min (hist.length + 1) ws : ℕ) : ℚ) := by
  obtain ⟨hw, hi, hc, hb⟩ := hinv
  have hjlt : hist.length % ws < ws := Nat.mod_lt _ (by omega)
  have hbuf : f.buffer.set f.index x = (List.range ws).map (slot ws (hist ++ [x])) := by
    rw [hb, hi]
    apply List.ext_getElem
    · simp
    · intro i hi1 hi2
      have hiws : i < ws := by simpa using hi2
      rw [List.getElem_set]
      simp only [List.getElem_map, List.getElem_range]
      rw [slot_append]
  have hcount : (if f.count < f.window_size then f.count + 1 else f.count)
      = min (hist.length + 1) ws := by
    rw [hc, hw]
    split_ifs <;> omega
  have hindex : (f.index + 1) % f.window_size = (hist.length + 1) % ws := by
    rw [hi, hw, Nat.mod_add_mod]
  refine ⟨⟨by simp [MovingAvgFilter.apply, hw], ?_, ?_, ?_⟩, ?_⟩
  · show (f.index + 1) % f.window_size = (hist ++ [x]).length % ws
    rw [hindex]
    simp
  · simp [MovingAvgFilter.apply, hcount]
  · simp [MovingAvgFilter.apply, hbuf]
  · show ((f.buffer.set f.index x).take
        (if f.count < f.window_size then f.count + 1 else f.count)).sum
      / ((if f.count < f.window_size then f.count + 1 else f.count : ℕ) : ℚ)
      = _
    rw [hcount, hbuf]
    have hmin : min (hist.length + 1) ws ≤ ws := by omega
    rw [← List.map_take, List.take_range]
    have : min (min (hist.length + 1) ws) ws = min (hist.length + 1) ws := by omega
    rw [this]
    have hs := sum_slots ws h1 (hist ++ [x])
    have hlen : (hist ++ [x]).length = hist.length + 1 := by simp
    rw [hlen] at hs
    rw [hs]

lemma runAll_append (f : MovingAvgFilter) (h : List ℚ) (x : ℚ) :
    f.runAll (h ++ [x]) = ((f.runAll h).apply x).2 := by
  simp [MovingAvgFilter.runAll, List.foldl_append]

lemma runAll_MAInv (ws : ℕ) (h1 : 1 ≤ ws) (h2 : ws ≤ 32) (hist : List ℚ) :
    MAInv ws hist ((MovingAvgFilter.new ws).runAll hist) := by
  induction hist using List.reverseRecOn with
  | nil => simpa [MovingAvgFilter.runAll] using new_MAInv ws h1 h2
  | append_singleton h x ih =>
      rw [runAll_append]
      exact (apply_MAInv ws h1 h ((MovingAvgFilter.new ws).runAll h) ih x).1

/-- Claim C3: for a MovingAverage filter with window size in [1,32], each
apply stores the input over the slot holding the oldest in-window sample,
advances the write index modulo the window size, updates the fill count to
min(samples_seen, window_size), and returns the arithmetic mean of the
min(samples_seen, window_size) most recently supplied samples. -/
theorem C3_moving_average (ws : ℕ) (h1 : 1 ≤ ws) (h2 : ws ≤ 32)
    (hist : List ℚ) (x : ℚ) :
    ((((MovingAvgFilter.new ws).runAll hist).apply x).1
        = ((hist ++ [x]).drop (hist.length + 1 - ws)).sum
            / ((min (hist.length + 1) ws : ℕ) : ℚ))
  ∧ (((MovingAvgFilter.new ws).runAll hist).apply x).2.index = (hist.length + 1) % ws
  ∧ (((MovingAvgFilter.new ws).runAll hist).apply x).2.count = min (hist.length + 1) ws
  ∧ (ws ≤ hist.length →
      ((MovingAvgFilter.new ws).runAll hist).buffer.getD
          ((MovingAvgFilter.new ws).runAll hist).index 0
        = hist.getD (hist.length - ws) 0) := by
  have hinv := runAll_MAInv ws h1 h2 hist
  have happ := apply_MAInv ws h1 hist ((MovingAvgFilter.new ws).runAll hist) hinv x
  obtain ⟨⟨hw', hi', hc', hb'⟩, hout⟩ := happ
  refine ⟨hout, by simpa using hi', by simpa using hc', ?_⟩
  intro hge
  obtain ⟨hw, hi, hc, hb⟩ := hinv
  rw [hb, hi]
  have hjlt : hist.length % ws < ws := Nat.mod_lt _ (by omega)
  have hlt : hist.length % ws < ((List.range ws).map (slot ws hist)).length := by
    simpa using hjlt
  rw [List.getD_eq_getElem _ _ hlt]
  simp only [List.getElem_map, List.getElem_range]
  exact slot_full ws hist h1 hge

/-- Witness for C3: window 3 on inputs [1,2,3,4] produces outputs
[1, 3/2, 2, 3], and the theorem instance confirms the final mean 3. -/
theorem C3_moving_average_witness :
    (MovingAvgFilter.new 3).applyAll [1, 2, 3, 4] = [1, 3/2, 2, 3] ∧
    ((1 : ℕ) ≤ 3 ∧ (3 : ℕ) ≤ 32) ∧
    (((MovingAvgFilter.new 3).runAll [1, 2, 3]).apply 4).1 = 3 := by
  refine ⟨?_, ⟨by norm_num, by norm_num⟩, ?_⟩
  · norm_num [MovingAvgFilter.applyAll, MovingAvgFilter.apply, MovingAvgFilter.new,
      List.set, List.take, List.sum_cons, List.replicate]
  · have h := (C3_moving_average 3 (by norm_num) (by norm_num) [1, 2, 3] 4).1
    norm_num [List.drop, List.sum_cons] at h
    convert h using 2

namespace Pot

/-- Membership of a rational in the normalized interval [0,1]. -/
def In01 (x : ℚ) : Prop := 0 ≤ x ∧ x ≤ 1

/-- Every numeric field of the mutable state lies in [0,1]: the running
last_output, the hysteresis baseline, the filter contents, and the grab-mode
values. -/
def State.allIn01 (s : State) : Prop :=
  In01 s.last_output ∧ In01 s.hysteresis.last_output ∧
  (∀ f, s.ema_filter = some f → In01 f.previous) ∧
  (∀ f, s.ma_filter = some f → ∀ q ∈ f.buffer, In01 q) ∧
  In01 s.virtual_value ∧ In01 s.physical_position ∧ In01 s.last_physical

/-- Configuration side condition: Schmitt thresholds and snap-zone targets
are themselves normalized values. -/
def Config.normalizedParams (c : Config) : Prop :=
  (∀ r f, c.hysteresis = .SchmittTrigger r f → In01 r ∧ In01 f) ∧
  (∀ z ∈ c.snap_zones, In01 z.target)

/-- The mutating operations of the public API. -/
inductive PotOp
  | update (input : ℚ)
  | set_virtual_value (v : ℚ)
  | release

/-- Run one API operation. -/
def PotHead.runOp (p : PotHead) : PotOp → PotHead
  | .update x => (p.update x).2
  | .set_virtual_value v => p.set_virtual_value v
  | .release => p.release

/-- Run a sequence of API operations. -/
def PotHead.runOps (p : PotHead) : List PotOp → PotHead
  | [] => p
  | op :: ops => (p.runOp op).runOps ops

/-- Internal invariant carried through the induction for claim C9. -/
def PotInv (p : PotHead) : Prop :=
  State.allIn01 p.state ∧ (∀ f, p.state.ma_filter = some f → 1 ≤ f.window_size)

end Pot

lemma normalize_in01 (p : PotHead) (x : ℚ)
    (hlt : p.config.input_min < p.config.input_max) :
    In01 (p.normalize_input x) := by
  have hd : (0 : ℚ) < p.config.input_max - p.config.input_min := by linarith
  unfold PotHead.normalize_input In01
  split_ifs with h1 h2 <;> dsimp only
  · rw [sub_self, zero_div]
    norm_num
  · rw [div_self (ne_of_gt hd)]
    norm_num
  · constructor
    · apply div_nonneg _ hd.le
      linarith [not_lt.mp h1]
    · rw [div_le_one hd]
      linarith [not_lt.mp h2]

lemma curve_in01 (cv : ResponseCurve) (v : ℚ) (hv : In01 v) :
    In01 (cv.apply v) := by
  cases cv
  exact hv

lemma ema_apply_bounds (f : EmaFilter) (input alpha : ℚ)
    (hf : In01 f.previous) (hi : In01 input) (ha : 0 < alpha ∧ alpha ≤ 1) :
    In01 (f.apply input alpha).1 ∧ In01 (f.apply input alpha).2.previous := by
  unfold EmaFilter.apply
  split_ifs with h
  · exact ⟨hi, hi⟩
  · have h0 : (0 : ℚ) ≤ alpha * input := mul_nonneg ha.1.le hi.1
    have h1 : (0 : ℚ) ≤ (1 - alpha) * f.previous :=
      mul_nonneg (by linarith [ha.2]) hf.1
    have h2 : alpha * input ≤ alpha * 1 :=
      mul_le_mul_of_nonneg_left hi.2 ha.1.le
    have h3 : (1 - alpha) * f.previous ≤ (1 - alpha) * 1 :=
      mul_le_mul_of_nonneg_left hf.2 (by linarith [ha.2])
    constructor <;> constructor <;> dsimp only <;> nlinarith

lemma list_sum_le_length (l : List ℚ) (h : ∀ y ∈ l, y ≤ 1) :
    l.sum ≤ (l.length : ℚ) := by
  induction l with
  | nil => simp
  | cons a l ih =>
      simp only [List.sum_cons, List.length_cons]
      have := h a (by simp)
      have := ih (fun y hy => h y (by simp [hy]))
      push_cast
      linarith

lemma ma_apply_bounds (f : MovingAvgFilter) (input : ℚ)
    (hbuf : ∀ q ∈ f.buffer, In01 q) (hw : 1 ≤ f.window_size) (hi : In01 input) :
    In01 (f.apply input).1 ∧ (∀ q ∈ (f.apply input).2.buffer, In01 q) ∧
    1 ≤ (f.apply input).2.window_size := by
  have hmem : ∀ q ∈ f.buffer.set f.index input, In01 q := by
    intro q hq
    rcases List.mem_or_eq_of_mem_set hq with h | rfl
    · exact hbuf q h
    · exact hi
  refine ⟨?_, by simpa [MovingAvgFilter.apply] using hmem,
    by simpa [MovingAvgFilter.apply] using hw⟩
  show In01 ((((f.buffer.set f.index input).take
      (if f.count < f.window_size then f.count + 1 else f.count)).sum)
    / ((if f.count < f.window_size then f.count + 1 else f.count : ℕ) : ℚ))
  set cnt := (if f.count < f.window_size then f.count + 1 else f.count) with hcnt
  have hcpos : 1 ≤ cnt := by
    rw [hcnt]; split_ifs with h <;> omega
  have hcq : (0 : ℚ) < (cnt : ℚ) := by exact_mod_cast hcpos
  have htake : ∀ q ∈ (f.buffer.set f.index input).take cnt, In01 q :=
    fun q hq => hmem q (List.mem_of_mem_take hq)
  have hsum0 : 0 ≤ ((f.buffer.set f.index input).take cnt).sum :=
    List.sum_nonneg (fun q hq => (htake q hq).1)
  have hsumle : ((f.buffer.set f.index input).take cnt).sum
      ≤ (((f.buffer.set f.index input).take cnt).length : ℚ) :=
    list_sum_le_length _ (fun q hq => (htake q hq).2)
  have hlen : (((f.buffer.set f.index input).take cnt).length : ℚ) ≤ (cnt : ℚ) := by
    have := List.length_take_le cnt (f.buffer.set f.index input)
    exact_mod_cast this
  constructor
  · exact div_nonneg hsum0 hcq.le
  · rw [div_le_one hcq]
    linarith

lemma hyst_apply_bounds (m : HysteresisMode) (input : ℚ) (st : HysteresisState)
    (hm : ∀ r f, m = .SchmittTrigger r f → In01 r ∧ In01 f)
    (hi : In01 input) (hst : In01 st.last_output) :
    In01 (m.apply input st).1 ∧ In01 (m.apply input st).2.last_output := by
  cases m with
  | None => exact ⟨hi, hst⟩
  | ChangeThreshold t =>
      simp only [HysteresisMode.apply]
      split_ifs <;> exact ⟨by assumption, by assumption⟩
  | SchmittTrigger r f =>
      obtain ⟨hr, hf⟩ := hm r f rfl
      simp only [HysteresisMode.apply]
      split_ifs with hc1 hc2
      · exact ⟨hr, hr⟩
      · exact ⟨hf, hf⟩
      · rcases st with ⟨lo, ss⟩
        cases ss
        · exact ⟨hf, hf⟩
        · exact ⟨hr, hr⟩

lemma snap_bounds (zones : List SnapZone) (v last : ℚ)
    (hz : ∀ z ∈ zones, In01 z.target) (hv : In01 v) (hl : In01 last) :
    In01 (applySnapZonesList zones v last) := by
  induction zones with
  | nil => exact hv
  | cons z rest ih =>
      simp only [applySnapZonesList]
      split_ifs with h
      · unfold SnapZone.apply
        rcases hzt : z.zone_type with _ | _
        · exact hz z (by simp)
        · exact hl
      · exact ih (fun w hw => hz w (by simp [hw]))

lemma apply_filter_decomp (p : PotHead) (v : ℚ) (hv : In01 v)
    (hema : ∀ f, p.state.ema_filter = some f → In01 f.previous)
    (hma : ∀ f, p.state.ma_filter = some f →
      (∀ q ∈ f.buffer, In01 q) ∧ 1 ≤ f.window_size)
    (halpha : ∀ a, p.config.filter = .ExponentialMovingAverage a →
      0 < a ∧ a ≤ 1) :
    In01 (p.apply_filter v).1 ∧
    ∃ e m, (p.apply_filter v).2
        = { p with state := { p.state with ema_filter := e, ma_filter := m } }
      ∧ (∀ f, e = some f → In01 f.previous)
      ∧ (∀ f, m = some f → (∀ q ∈ f.buffer, In01 q) ∧ 1 ≤ f.window_size) := by
  unfold PotHead.apply_filter
  rcases hfil : p.config.filter with _ | a | w
  · exact ⟨hv, p.state.ema_filter, p.state.ma_filter, by simp, hema, hma⟩
  · rcases hef : p.state.ema_filter with _ | f
    · exact ⟨hv, p.state.ema_filter, p.state.ma_filter, by simp, hema, hma⟩
    · have hb := ema_apply_bounds f v a (hema f hef) hv (halpha a hfil)
      refine ⟨hb.1, some (f.apply v a).2, p.state.ma_filter, by simp, ?_, hma⟩
      rintro g hg
      cases hg
      exact hb.2
  · rcases hmf : p.state.ma_filter with _ | f
    · exact ⟨hv, p.state.ema_filter, p.state.ma_filter, by simp, hema, hma⟩
    · have hb := ma_apply_bounds f v (hma f hmf).1 (hma f hmf).2 hv
      refine ⟨hb.1, p.state.ema_filter, some (f.apply v).2, by simp, hema, ?_⟩
      rintro g hg
      cases hg
      exact ⟨hb.2.1, hb.2.2⟩

lemma apply_grab_mode_decomp (p : PotHead) (v : ℚ) :
    ∃ out lp G B,
      p.apply_grab_mode v = (out, { p.state with
        grabbed := G
        virtual_value := out
        last_physical := lp
        passthrough_initialized := B })
      ∧ (out = v ∨ out = p.state.virtual_value)
      ∧ (lp = v ∨ lp = p.state.last_physical) := by
  obtain ⟨cfg, hys, ema, ma, lo, gr, vv, pp, lp, pti⟩ := p
  unfold PotHead.apply_grab_mode
  dsimp only
  rcases cfg.grab_mode with _ | _ | _
  · exact ⟨v, lp, true, pti, rfl, Or.inl rfl, Or.inr rfl⟩
  · by_cases hg : gr
    · exact ⟨v, lp, true, pti, by simp [hg], Or.inl rfl, Or.inr rfl⟩
    · by_cases hcmp : vv ≤ v
      · exact ⟨v, lp, true, pti, by simp [hg, hcmp], Or.inl rfl, Or.inr rfl⟩
      · exact ⟨vv, lp, gr, pti, by simp [hg, hcmp], Or.inr rfl, Or.inr rfl⟩
  · by_cases hg : gr
    · exact ⟨v, v, true, pti, by simp [hg], Or.inl rfl, Or.inl rfl⟩
    · by_cases hini : pti
      · by_cases hcross : (vv ≤ v ∧ lp < vv) ∨ (v ≤ vv ∧ vv < lp)
        · exact ⟨v, v, true, pti, by simp [hg, hini, hcross], Or.inl rfl, Or.inl rfl⟩
        · exact ⟨vv, v, gr, pti, by simp [hg, hini, hcross], Or.inr rfl, Or.inl rfl⟩
      · exact ⟨vv, v, gr, true, by simp [hg, hini], Or.inr rfl, Or.inl rfl⟩

lemma update_preserves (p : PotHead) (x : ℚ)
    (hlt : p.config.input_min < p.config.input_max)
    (halpha : ∀ a, p.config.filter = .ExponentialMovingAverage a →
      0 < a ∧ a ≤ 1)
    (hnorm : p.config.normalizedParams)
    (hinv : PotInv p) :
    PotInv (p.update x).2 ∧ (p.update x).2.config = p.config := by
  obtain ⟨⟨hlo, hhy, hema, hma0, hvv, hpp, hlp⟩, hwin⟩ := hinv
  have hma : ∀ f, p.state.ma_filter = some f →
      (∀ q ∈ f.buffer, In01 q) ∧ 1 ≤ f.window_size :=
    fun f hf => ⟨hma0 f hf, hwin f hf⟩
  have hn : In01 (p.normalize_input x) := normalize_in01 p x hlt
  obtain ⟨hfo, e, m, heq, he, hm⟩ :=
    apply_filter_decomp p (p.normalize_input x) hn hema hma halpha
  have hcv : In01 (p.config.curve.apply (p.apply_filter (p.normalize_input x)).1) :=
    curve_in01 _ _ hfo
  have hhr := hyst_apply_bounds p.config.hysteresis
    (p.config.curve.apply (p.apply_filter (p.normalize_input x)).1)
    p.state.hysteresis hnorm.1 hcv hhy
  set hr := p.config.hysteresis.apply
    (p.config.curve.apply (p.apply_filter (p.normalize_input x)).1)
    p.state.hysteresis with hhr_def
  set p2 : PotHead := { p with state := { p.state with
      ema_filter := e
      ma_filter := m
      hysteresis := hr.2
      physical_position := hr.1 } } with hp2_def
  set sv := applySnapZonesList p.config.snap_zones hr.1 p.state.last_output
    with hsv_def
  have hsv01 : In01 sv := snap_bounds _ _ _ hnorm.2 hhr.1 hlo
  obtain ⟨out, lp', G, B, hgr, hout, hlp'⟩ := apply_grab_mode_decomp p2 sv
  have hout01 : In01 out := by
    rcases hout with rfl | h
    · exact hsv01
    · rw [h]
      exact hvv
  have hlp01 : In01 lp' := by
    rcases hlp' with rfl | h
    · exact hsv01
    · rw [h]
      exact hlp
  have hupd : (p.update x).2
      = { p2 with state := { (p2.apply_grab_mode sv).2 with
            last_output := (p2.apply_grab_mode sv).1 } } := by
    unfold PotHead.update
    dsimp only
    rw [heq]
    rfl
  rw [hupd, hgr]
  refine ⟨⟨⟨?_, ?_, ?_, ?_, ?_, ?_, ?_⟩, ?_⟩, ?_⟩
  · exact hout01
  · exact hhr.2
  · exact he
  · exact fun f hf => (hm f hf).1
  · exact hout01
  · exact hhr.1
  · exact hlp01
  · exact fun f hf => (hm f hf).2
  · rfl

lemma filter_alpha_ok (f : NoiseFilter) (hf : f.validate = true) :
    ∀ a, f = .ExponentialMovingAverage a → 0 < a ∧ a ≤ 1 := by
  rintro a rfl
  simp only [NoiseFilter.validate] at hf
  split_ifs at hf with h
  push_neg at h
  exact ⟨h.1, h.2⟩

lemma filter_window_ok (f : NoiseFilter) (hf : f.validate = true) :
    ∀ w, f = .MovingAverage w → 1 ≤ w ∧ w ≤ 32 := by
  rintro w rfl
  simp only [NoiseFilter.validate] at hf
  split_ifs at hf with h1 h2
  omega

lemma new_PotInv (c : Config) (p : PotHead) (hnew : PotHead.new c = .ok p) :
    PotInv p ∧ p.config = c := by
  rw [new_eq_ok_iff] at hnew
  obtain ⟨hval, rfl⟩ := hnew
  have hv := (config_validate_ok_iff c).mp hval
  refine ⟨?_, rfl⟩
  show PotInv ⟨c, PotHead.initState c⟩
  unfold PotHead.initState
  have h01 : In01 0 := ⟨le_refl 0, by norm_num⟩
  rcases hfil : c.filter with _ | a | w
  · exact ⟨⟨h01, h01, by simp [State.default], by simp [State.default],
      h01, h01, h01⟩, by simp [State.default]⟩
  · refine ⟨⟨h01, h01, ?_, by simp [State.default], h01, h01, h01⟩,
      by simp [State.default]⟩
    rintro f hf
    simp [State.default] at hf
    rw [← hf]
    exact h01
  · have hw := filter_window_ok c.filter hv.2.2.2 w hfil
    refine ⟨⟨h01, h01, by simp [State.default], ?_, h01, h01, h01⟩, ?_⟩
    · rintro f hf
      simp [State.default] at hf
      rw [← hf]
      intro q hq
      rw [List.eq_of_mem_replicate hq]
      exact h01
    · rintro f hf
      simp [State.default] at hf
      rw [← hf]
      show 1 ≤ (MovingAvgFilter.new w).window_size
      simpa [MovingAvgFilter.new] using hw.1

/-- Claim C9 (amended): for every config accepted by new whose Schmitt
thresholds and snap-zone targets are themselves in [0,1], every numeric field
of the mutable state is in [0,1] initially and stays in [0,1] under any
sequence of update, set_virtual_value-with-normalized-argument, and release
calls. -/
theorem C9_state_in_01 (c : Config) (p : PotHead)
    (hnew : PotHead.new c = .ok p) (hnorm : c.normalizedParams)
    (ops : List PotOp)
    (hops : ∀ v, PotOp.set_virtual_value v ∈ ops → In01 v) :
    State.allIn01 (p.runOps ops).state := by
  obtain ⟨hinv, hcfg⟩ := new_PotInv c p hnew
  have hvconds := (config_validate_ok_iff c).mp ((new_eq_ok_iff c p).mp hnew).1
  have main : ∀ (l : List PotOp), (∀ v, PotOp.set_virtual_value v ∈ l → In01 v) →
      ∀ q : PotHead, PotInv q → q.config = c → PotInv (q.runOps l) := by
    intro l
    induction l with
    | nil => exact fun _ q hq _ => hq
    | cons op rest ih =>
        intro hops' q hq hqc
        have hstep : PotInv (q.runOp op) ∧ (q.runOp op).config = c := by
          cases op with
          | update y =>
              have h1 : q.config.input_min < q.config.input_max := by
                rw [hqc]; exact hvconds.1
              have h2 : ∀ a, q.config.filter = .ExponentialMovingAverage a →
                  0 < a ∧ a ≤ 1 := by
                rw [hqc]; exact filter_alpha_ok c.filter hvconds.2.2.2
              have h3 : q.config.normalizedParams := by rw [hqc]; exact hnorm
              have h := update_preserves q y h1 h2 h3 hq
              exact ⟨h.1, by show (q.update y).2.config = c; rw [h.2, hqc]⟩
          | set_virtual_value v =>
              have hv01 : In01 v := hops' v (by simp)
              obtain ⟨⟨hlo, hhy, hema, hma, hvv, hpp, hlp⟩, hwin⟩ := hq
              exact ⟨⟨⟨hlo, hhy, hema, hma, hv01, hpp, hlp⟩, hwin⟩, hqc⟩
          | release =>
              obtain ⟨⟨hlo, hhy, hema, hma, hvv, hpp, hlp⟩, hwin⟩ := hq
              exact ⟨⟨⟨hlo, hhy, hema, hma, hpp, hpp, hlp⟩, hwin⟩, hqc⟩
        exact ih (fun v hv => hops' v (by simp [hv])) _ hstep.1 hstep.2
  exact (main ops hops p hinv hcfg).1

/-- Config refuting claim C9 as stated: accepted by new, yet its Schmitt
thresholds 5 and -2 are far outside [0,1]. -/
def cfgC9 : Config :=
  { input_min := 0, input_max := 1, output_min := 0, output_max := 1
    hysteresis := .SchmittTrigger 5 (-2), curve := .Linear, filter := .None
    snap_zones := [], grab_mode := .None }

/-- The pipeline PotHead::new builds for cfgC9. -/
def potC9 : PotHead := { config := cfgC9, state := State.default }

/-- Counterexample to claim C9 as stated: after one update the stored
last_output of the accepted config cfgC9 is -2, outside [0,1]. -/
theorem C9_counterexample :
    PotHead.new cfgC9 = .ok potC9 ∧
    ¬ In01 ((potC9.update 0).2.state.last_output) := by
  constructor
  · norm_num [PotHead.new, Config.validate, HysteresisMode.validate,
      NoiseFilter.validate, potC9, cfgC9]
  · norm_num [In01, PotHead.update, PotHead.normalize_input, PotHead.apply_filter,
      PotHead.apply_snap_zones, PotHead.apply_grab_mode, PotHead.denormalize_output,
      ResponseCurve.apply, HysteresisMode.apply, applySnapZonesList,
      potC9, cfgC9, State.default, HysteresisState.default]

/-- Config witnessing the amended claim C9. -/
def cfgC9w : Config :=
  { input_min := 0, input_max := 1, output_min := 0, output_max := 1
    hysteresis := .SchmittTrigger (3/5) (2/5), curve := .Linear, filter := .None
    snap_zones := [], grab_mode := .Pickup }

/-- The pipeline PotHead::new builds for cfgC9w. -/
def potC9w : PotHead := { config := cfgC9w, state := State.default }

/-- Witness for the amended claim C9 on a concrete config and op sequence. -/
theorem C9_state_in_01_witness :
    PotHead.new cfgC9w = .ok potC9w ∧
    State.allIn01 (potC9w.runOps
      [PotOp.update 2, PotOp.set_virtual_value (1/2), PotOp.release]).state := by
  have hnew : PotHead.new cfgC9w = .ok potC9w := by
    norm_num [PotHead.new, Config.validate, HysteresisMode.validate,
      NoiseFilter.validate, potC9w, cfgC9w]
  refine ⟨hnew, C9_state_in_01 cfgC9w potC9w hnew ⟨?_, ?_⟩ _ ?_⟩
  · rintro r f hrf
    simp only [cfgC9w, HysteresisMode.SchmittTrigger.injEq] at hrf
    rw [← hrf.1, ← hrf.2]
    constructor <;> constructor <;> norm_num [In01]
  · simp [cfgC9w]
  · intro v hv
    simp only [List.mem_cons, List.not_mem_nil, or_false] at hv
    rcases hv with hv | hv | hv <;> simp_all [In01]
    norm_num
